import Mathlib

set_option maxRecDepth 100000
set_option autoImplicit false

/-!
Verification of the dio push/pull synchronization subsystem.

A shallow embedding of the `dio` command-line client's `pull` and `push`
commands (package `cmd`, files `pull.go` / `push.go`) together with the
local content cache and metadata state they manipulate, and proofs of the
specification's claims about them.

Conventions:
* byte strings are `List Nat` (each entry one byte);
* the filesystem state touched by the commands is an explicit `DioState`
  record threaded through the step functions;
* external library calls (HTTP transport, `time.Parse`, `json.Unmarshal`)
  and I/O failure points are supplied as explicit oracle records, so every
  possible execution of the Go code corresponds to one choice of oracles;
* network traffic is recorded as a `List NetCall` trace, playing the role
  of a remote-service stub that records its invocations.
-/

/-- Byte strings: one `Nat` per byte. -/
abbrev Bytes := List Nat

deriving instance DecidableEq for Except

/-! ## Association-list helpers (Go maps and directories of files) -/

/-- Lookup in an association list (Go map indexing / reading a file from a
directory listing). -/
def lookupA {α : Type} : List (String × α) → String → Option α
  | [], _ => none
  | (k, v) :: rest, key => if k = key then some v else lookupA rest key

/-- Key-membership test (the Go `_, ok := m[k]` idiom). -/
def hasKey {α : Type} (l : List (String × α)) (k : String) : Bool :=
  (lookupA l k).isSome

/-- Store `v` under key `k`, replacing any existing entry for `k`
(`ioutil.WriteFile` into a directory modelled as an association list). -/
def setFile {α : Type} (k : String) (v : α) : List (String × α) → List (String × α)
  | [] => [(k, v)]
  | (k', v') :: rest => if k' = k then (k, v) :: rest else (k', v') :: setFile k v rest

theorem setFile_idem {α : Type} (k : String) (v : α) (l : List (String × α)) :
    setFile k v (setFile k v l) = setFile k v l := by
  induction l with
  | nil => simp [setFile]
  | cons p rest ih =>
    obtain ⟨k', v'⟩ := p
    by_cases h : k' = k <;> simp [setFile, h, ih]

theorem lookupA_setFile {α : Type} (k : String) (v : α) (l : List (String × α)) :
    lookupA (setFile k v l) k = some v := by
  induction l with
  | nil => simp [setFile, lookupA]
  | cons p rest ih =>
    obtain ⟨k', v'⟩ := p
    by_cases h : k' = k <;> simp [setFile, h, lookupA, ih]

/-! ## String helpers (the `strings` package operations used by `pull.go`) -/

/-- Split a character list at every occurrence of the separator `c`. -/
def splitCharsOn (c : Char) : List Char → List Char → List String
  | [], acc => [String.mk acc.reverse]
  | ch :: rest, acc =>
    if ch = c then String.mk acc.reverse :: splitCharsOn c rest []
    else splitCharsOn c rest (ch :: acc)

/-- Model of `strings.Split(s, sep)` for the single-character separators
used by the source (`";"`, `"="`, `"/"`). -/
def splitOnChar (c : Char) (s : String) : List String :=
  splitCharsOn c s.data []

/-- Is `p` an initial segment of `s`? -/
def listStarts : List Char → List Char → Bool
  | [], _ => true
  | _ :: _, [] => false
  | p :: ps, ch :: cs => p = ch && listStarts ps cs

/-- Model of `strings.HasPrefix(s, p)`. -/
def strStarts (s p : String) : Bool := listStarts p.data s.data

/-- Model of `strings.TrimLeft(s, " ")`: drop leading space characters. -/
def trimLeftSpaces (s : String) : String :=
  String.mk (s.data.dropWhile (fun ch => ch = ' '))

/-- Model of `strings.Trim(s, cutset)` for a single-character cutset: drop
the character from both ends. -/
def trimChar (c : Char) (s : String) : String :=
  String.mk (((s.data.dropWhile (fun ch => ch = c)).reverse.dropWhile
    (fun ch => ch = c)).reverse)

/-- Model of `filepath.Base`: the last path component (`"."` for the empty
path). -/
def baseName (p : String) : String :=
  (splitOnChar '/' p).getLastD "."

/-! ## SHA-256 (FIPS 180-4), as used via Go's `crypto/sha256.Sum256` -/

/-- The word modulus 2^32 of SHA-256. -/
def w32 : Nat := 4294967296

/-- Addition modulo 2^32. -/
def add32 (a b : Nat) : Nat := (a + b) % w32

/-- Right-rotation of a 32-bit word by `n` bits (`0 < n < 32`). -/
def rotr32 (n x : Nat) : Nat := (x >>> n) ||| ((x <<< (32 - n)) % w32)

/-- SHA-256 `Σ0`. -/
def bigS0 (x : Nat) : Nat := rotr32 2 x ^^^ rotr32 13 x ^^^ rotr32 22 x

/-- SHA-256 `Σ1`. -/
def bigS1 (x : Nat) : Nat := rotr32 6 x ^^^ rotr32 11 x ^^^ rotr32 25 x

/-- SHA-256 `σ0`. -/
def smallS0 (x : Nat) : Nat := rotr32 7 x ^^^ rotr32 18 x ^^^ (x >>> 3)

/-- SHA-256 `σ1`. -/
def smallS1 (x : Nat) : Nat := rotr32 17 x ^^^ rotr32 19 x ^^^ (x >>> 10)

/-- SHA-256 `Ch(x,y,z)`; `¬x` is `x ^^^ 0xffffffff` on 32-bit words. -/
def chF (x y z : Nat) : Nat := (x &&& y) ^^^ ((x ^^^ 4294967295) &&& z)

/-- SHA-256 `Maj(x,y,z)`. -/
def majF (x y z : Nat) : Nat := (x &&& y) ^^^ (x &&& z) ^^^ (y &&& z)

/-- The 64 SHA-256 round constants (FIPS 180-4 section 4.2.2), written in
decimal. -/
def sha256K : List Nat :=
  [1116352408, 1899447441, 3049323471, 3921009573, 961987163, 1508970993,
   2453635748, 2870763221, 3624381080, 310598401, 607225278, 1426881987,
   1925078388, 2162078206, 2614888103, 3248222580, 3835390401, 4022224774,
   264347078, 604807628, 770255983, 1249150122, 1555081692, 1996064986,
   2554220882, 2821834349, 2952996808, 3210313671, 3336571891, 3584528711,
   113926993, 338241895, 666307205, 773529912, 1294757372, 1396182291,
   1695183700, 1986661051, 2177026350, 2456956037, 2730485921, 2820302411,
   3259730800, 3345764771, 3516065817, 3600352804, 4094571909, 275423344,
   430227734, 506948616, 659060556, 883997877, 958139571, 1322822218,
   1537002063, 1747873779, 1955562222, 2024104815, 2227730452, 2361852424,
   2428436474, 2756734187, 3204031479, 3329325298]

/-- The SHA-256 initial hash value (FIPS 180-4 section 5.3.3), written in
decimal. -/
def sha256H0 : List Nat :=
  [1779033703, 3144134277, 1013904242, 2773480762,
   1359893119, 2600822924, 528734635, 1541459225]

/-- Message padding: append `0x80`, zeros to 56 mod 64, then the bit length
as an 8-byte big-endian integer. -/
def sha256Pad (msg : Bytes) : Bytes :=
  let L := msg.length
  let padZeros := (64 - ((L + 9) % 64)) % 64
  let bitLen := L * 8
  let lenBytes := (List.range 8).map (fun i => (bitLen >>> (8 * (7 - i))) % 256)
  msg ++ 128 :: List.replicate padZeros 0 ++ lenBytes

/-- Parse one 64-byte block into sixteen big-endian 32-bit words. -/
def sha256ToWords (block : Bytes) : List Nat :=
  (List.range 16).map (fun i =>
    (block.getD (4 * i) 0) <<< 24 ||| (block.getD (4 * i + 1) 0) <<< 16 |||
    (block.getD (4 * i + 2) 0) <<< 8 ||| block.getD (4 * i + 3) 0)

/-- Split a padded message into its 64-byte blocks, each as 16 words. -/
def sha256Blocks (padded : Bytes) : List (List Nat) :=
  (List.range (padded.length / 64)).map
    (fun b => sha256ToWords ((padded.drop (64 * b)).take 64))

/-- The 64-entry message schedule of one block. -/
def sha256Schedule (m : List Nat) : List Nat :=
  (List.range 64).foldl
    (fun w t =>
      if t < 16 then w ++ [m.getD t 0]
      else w ++ [add32 (add32 (smallS1 (w.getD (t - 2) 0)) (w.getD (t - 7) 0))
                       (add32 (smallS0 (w.getD (t - 15) 0)) (w.getD (t - 16) 0))])
    []

/-- One application of the SHA-256 compression function. -/
def sha256Compress (hs : List Nat) (m : List Nat) : List Nat :=
  let w := sha256Schedule m
  let final := (List.range 64).foldl
    (fun s t =>
      match s with
      | (a, b, c, d, e, f, g, h) =>
        let t1 := add32 (add32 h (bigS1 e))
                        (add32 (chF e f g) (add32 (sha256K.getD t 0) (w.getD t 0)))
        let t2 := add32 (bigS0 a) (majF a b c)
        (add32 t1 t2, a, b, c, add32 d t1, e, f, g))
    (hs.getD 0 0, hs.getD 1 0, hs.getD 2 0, hs.getD 3 0,
     hs.getD 4 0, hs.getD 5 0, hs.getD 6 0, hs.getD 7 0)
  match final with
  | (a, b, c, d, e, f, g, h) =>
    [add32 (hs.getD 0 0) a, add32 (hs.getD 1 0) b, add32 (hs.getD 2 0) c,
     add32 (hs.getD 3 0) d, add32 (hs.getD 4 0) e, add32 (hs.getD 5 0) f,
     add32 (hs.getD 6 0) g, add32 (hs.getD 7 0) h]

/-- Model of `sha256.Sum256`: the 32-byte SHA-256 digest of a byte string. -/
def sha256Bytes (msg : Bytes) : Bytes :=
  let hs := (sha256Blocks (sha256Pad msg)).foldl sha256Compress sha256H0
  (hs.map (fun h => [(h >>> 24) % 256, (h >>> 16) % 256, (h >>> 8) % 256, h % 256])).flatten

/-! ## Lowercase hex encoding (`encoding/hex.EncodeToString`) -/

/-- One lowercase hex digit. -/
def hexDigit (n : Nat) : Char :=
  if n < 10 then Char.ofNat (48 + n) else Char.ofNat (87 + n)

/-- Two hex digits of one byte. -/
def hexByte (b : Nat) : List Char := [hexDigit (b / 16), hexDigit (b % 16)]

/-- Model of `hex.EncodeToString`: lowercase hex of a byte string. -/
def hexEncode (bs : Bytes) : String := String.mk ((bs.map hexByte).flatten)

/-- The content-address filename computed at pull.go lines 107-108:
`hex.EncodeToString(sha256.Sum256(msg))`. -/
def sha256Hex (msg : Bytes) : String := hexEncode (sha256Bytes msg)

/-- FIPS 180-4 test vector: the digest of the empty message. -/
theorem sha256Hex_empty :
    sha256Hex [] = "e3b0c44298fc1c149afbf4c8996fb92427ae41e4649b934ca495991b7852b855" := by
  decide

/-- FIPS 180-4 test vector: the digest of `"abc"`. -/
theorem sha256Hex_abc :
    sha256Hex [97, 98, 99] =
      "ba7816bf8f01cfea414140de5dae2223b00361a396177a9cb410ff61f20015ad" := by
  decide

/-! ## Data model -/

/-- One commit record of the per-database metadata (spec §3; the Go
`commitEntry` type is not under src/, its fields are taken from the spec). -/
structure CommitInfo where
  Parent : String
  AuthorName : String
  AuthorEmail : String
  Message : String
  Timestamp : Nat
  Digest : String
deriving DecidableEq

/-- The Go `metaData` record as used by `pull.go` / `push.go`: branch map,
commit map and active branch. -/
structure Metadata where
  ActiveBranch : String
  Branches : List (String × String)
  Commits : List (String × CommitInfo)
deriving DecidableEq

/-- The local on-disk state touched by one pull/push invocation, for a single
database name:
* `cacheDirExists` — whether `.dio/<db>/db` exists;
* `cache` — the files inside `.dio/<db>/db`, keyed by filename;
* `workingCopy` — the database file in the working directory (`none` = absent);
* `wcMtime` — its modification time, when set via `os.Chtimes`;
* `metaOnDisk` — the persisted metadata record (`none` = absent);
* `branchPtr` / `commitPtr` — the legacy `.dio/<file>/branch` and
  `.dio/<file>/commit` pointer files (`none` = absent). -/
structure DioState where
  cacheDirExists : Bool
  cache : List (String × Bytes)
  workingCopy : Option Bytes
  wcMtime : Option Nat
  metaOnDisk : Option Metadata
  branchPtr : Option String
  commitPtr : Option String
deriving DecidableEq

/-- The parts of an HTTP download response read by `pull.go`. -/
structure HttpResponse where
  StatusCode : Nat
  Status : String
  body : Bytes
  contentDisposition : String
  branchHeader : String
  commitIdHeader : String
deriving DecidableEq

/-- The upload request assembled at push.go lines 99-118: URL path component,
query parameters and the optional licence parameter. -/
structure PushRequest where
  file : String
  branch : String
  commitmsg : String
  lastmodified : Nat
  commit : String
  publicFlag : Bool
  force : Bool
  licence : Option String
deriving DecidableEq

/-- One recorded invocation of the remote service (the stub's log). -/
inductive NetCall where
  | metaFetch (db : String)
  | download (db : String) (queryKey : String) (queryValue : String)
  | upload (req : PushRequest)
deriving DecidableEq

/-- Every distinct error exit of `pull.go` / `push.go`, one constructor per
`errors.New` / returned-error site. -/
inductive CmdErr where
  | noDbSpecified
  | tooManyDbs
  | bothBranchAndCommit
  | metaFail (msg : String)
  | branchNotExist
  | commitNotExist
  | downloadTransport
  | branchNotKnown404
  | commitNotFound404 (commit : String)
  | dbNotFound404
  | downloadFailed (status : Nat) (statusText : String)
  | mkdirFailed
  | cacheWriteFailed
  | wcWriteFailed
  | timeParseFailed (value : String)
  | chtimesFailed
  | saveMetaFailed
  | statFailed
  | authorEmailRequired
  | msgRequired
  | uploadTransport
  | uploadFailed (status : Nat) (statusText : String)
  | jsonParseFailed
  | commitWriteFailed
deriving DecidableEq

/-- The success report of a pull (pull.go lines 154-176): resolved by branch,
by server-declared commit id, or generic; each with the byte count. -/
inductive PullOk where
  | byBranch (db : String) (size : Nat) (branch : String)
  | byCommit (db : String) (size : Nat) (commit : String)
  | generic (db : String) (size : Nat)
deriving DecidableEq

/-- The success report of a push (push.go lines 153-160). -/
structure PushOk where
  dbName : String
  branch : String
  licence : Option String
  size : Nat
  msg : String
deriving DecidableEq

/-- Outcome of one `ioutil.WriteFile`: complete, or interrupted after `k`
bytes, leaving a prefix of the intended content (`WriteFile` truncates the
target before writing, so an interrupted write destroys the old content). -/
inductive WriteOutcome where
  | ok
  | fail (k : Nat)
deriving DecidableEq

/-- External collaborators of one pull: the `updateMetadata(db, false)`
result, the download response (`none` = transport errors), and the
`time.Parse(time.RFC3339, ·)` library function (`none` = parse error). -/
structure PullEnv where
  metaResult : Except String Metadata
  resp : Option HttpResponse
  parseTime : String → Option Nat

/-- Local-I/O oracle of one pull: outcomes of `os.MkdirAll`, the two
`ioutil.WriteFile` calls, `os.Chtimes` and `saveMetadata`.  `saveMetadata`
is a separate function of this repository not under src/; at this level it
is one step that either persists the whole record or fails — its internal
(non-atomic) write behaviour is modelled separately by
`saveMetadataOverwrite`. -/
structure PullFS where
  mkdirOk : Bool
  cacheWrite : WriteOutcome
  wcWrite : WriteOutcome
  chtimesOk : Bool
  saveOk : Bool
deriving DecidableEq

/-! ## The pull command (pull.go) -/

/-- Extraction of the `modification-date` parameter from the
`Content-Disposition` header, pull.go lines 124-131: split on `";"`, require
exactly 4 fields, left-trim spaces from the third, require the
`modification-date=` key, split on `"="` and trim quotes from the value.
Returns the raw timestamp string handed to `time.Parse`, or `none` when the
header does not match this shape (in which case pull skips the step). -/
def contentDispositionModDate (disp : String) : Option String :=
  if disp ≠ "" then
    let s := splitOnChar ';' disp
    if s.length = 4 then
      let a := trimLeftSpaces (s.getD 2 "")
      if strStarts a "modification-date=" then
        some (trimChar '"' ((splitOnChar '=' a).getD 1 ""))
      else none
    else none
  else none

/-- The tail of a successful download (pull.go lines 143-176): adopt the
server-declared branch into the metadata, `saveMetadata`, and build the
success report (by branch / by server commit id / generic). -/
def pullFinish (pullCmdBranch db : String) (meta0 : Metadata) (resp : HttpResponse)
    (fs : PullFS) (st : DioState) (calls : List NetCall) :
    Except CmdErr PullOk × DioState × List NetCall :=
  let meta1 := if resp.branchHeader ≠ "" then
    { meta0 with ActiveBranch := resp.branchHeader } else meta0
  if fs.saveOk then
    let rep : PullOk :=
      if pullCmdBranch ≠ "" then .byBranch db resp.body.length pullCmdBranch
      else if resp.commitIdHeader ≠ "" then
        .byCommit db resp.body.length resp.commitIdHeader
      else .generic db resp.body.length
    (.ok rep, { st with metaOnDisk := some meta1 }, calls)
  else (.error .saveMetaFailed, st, calls)

/-- The content phase of a successful download (pull.go lines 106-176):
compute the SHA-256 content address, write the blob into the cache
directory under that name, write the working copy, apply the
modification-date header when present and well-formed, then finish via
`pullFinish`.  `st1` is the state after the cache directory exists. -/
def pullContent (pullCmdBranch db : String) (meta0 : Metadata) (resp : HttpResponse)
    (env : PullEnv) (fs : PullFS) (st1 : DioState) (calls : List NetCall) :
    Except CmdErr PullOk × DioState × List NetCall :=
  let body := resp.body
  let shaSum := sha256Hex body
  match fs.cacheWrite with
  | .fail k =>
    (.error .cacheWriteFailed,
     { st1 with cache := setFile shaSum (body.take k) st1.cache }, calls)
  | .ok =>
    let st2 := { st1 with cache := setFile shaSum body st1.cache }
    match fs.wcWrite with
    | .fail k =>
      (.error .wcWriteFailed, { st2 with workingCopy := some (body.take k) }, calls)
    | .ok =>
      let st3 := { st2 with workingCopy := some body }
      match contentDispositionModDate resp.contentDisposition with
      | some c =>
        match env.parseTime c with
        | none => (.error (.timeParseFailed c), st3, calls)
        | some lastMod =>
          if fs.chtimesOk then
            let st4 := { st3 with wcMtime := some lastMod }
            pullFinish pullCmdBranch db meta0 resp fs st4 calls
          else (.error .chtimesFailed, st3, calls)
      | none => pullFinish pullCmdBranch db meta0 resp fs st3 calls

/-- The `pull` command body (pull.go lines 27-177), as a function of the flag
values, the positional arguments, the external-collaborator oracles and the
starting local state.  Returns the command's result, the final local state
and the trace of remote-service invocations. -/
def pullRun (pullCmdBranch pullCmdCommit : String) (args : List String)
    (env : PullEnv) (fs : PullFS) (st : DioState) :
    Except CmdErr PullOk × DioState × List NetCall :=
  match args with
  | [] => (.error .noDbSpecified, st, [])
  | _ :: _ :: _ => (.error .tooManyDbs, st, [])
  | [db] =>
    if pullCmdBranch ≠ "" ∧ pullCmdCommit ≠ "" then
      (.error .bothBranchAndCommit, st, [])
    else
      match env.metaResult with
      | .error e => (.error (.metaFail e), st, [.metaFetch db])
      | .ok meta0 =>
        if pullCmdBranch ≠ "" ∧ ¬ hasKey meta0.Branches pullCmdBranch then
          (.error .branchNotExist, st, [.metaFetch db])
        else if pullCmdCommit ≠ "" ∧ ¬ hasKey meta0.Commits pullCmdCommit then
          (.error .commitNotExist, st, [.metaFetch db])
        else
          let sel : String × String :=
            if pullCmdBranch ≠ "" then ("branch", pullCmdBranch)
            else ("commit", pullCmdCommit)
          let calls := [NetCall.metaFetch db, NetCall.download db sel.1 sel.2]
          match env.resp with
          | none => (.error .downloadTransport, st, calls)
          | some resp =>
            if resp.StatusCode ≠ 200 then
              if resp.StatusCode = 404 then
                if pullCmdBranch ≠ "" then (.error .branchNotKnown404, st, calls)
                else if pullCmdCommit ≠ "" then
                  (.error (.commitNotFound404 pullCmdCommit), st, calls)
                else (.error .dbNotFound404, st, calls)
              else (.error (.downloadFailed resp.StatusCode resp.Status), st, calls)
            else
              match (if st.cacheDirExists then some st
                     else if fs.mkdirOk then some { st with cacheDirExists := true }
                     else none) with
              | none => (.error .mkdirFailed, st, calls)
              | some st1 => pullContent pullCmdBranch db meta0 resp env fs st1 calls

/-! ## The push command (push.go) -/

/-- External collaborators of one push: the `os.Stat` result for the file
(size and modification time; `none` = the file does not exist), the two
`viper.Get` configuration values (as strings, when set and of string type),
the upload response (`none` = transport errors; otherwise status code,
status text and body), the `json.Unmarshal` library function for a
`map[string]string` target (`none` = parse error), and the result of
`updateMetadata(file, true)`. -/
structure PushEnv where
  fileStat : Option (Nat × Nat)
  viperAuthor : Option String
  viperEmail : Option String
  resp : Option (Nat × String × String)
  jsonParse : String → Option (List (String × String))
  updateMetaResult : Except String Metadata

/-- The `push` command body (push.go lines 31-162), as a function of the
flag values, the positional arguments, the external-collaborator oracles,
the outcome of the final commit-pointer `ioutil.WriteFile`, and the starting
local state.  The saved branch/commit pointer files of push.go lines 83-96
are read from `st.branchPtr` / `st.commitPtr`.  Returns the command's
result, the final local state and the trace of remote-service
invocations. -/
def pushRun (pushCmdBranch pushCmdCommit pushCmdDB pushCmdEmail pushCmdLicence
    pushCmdMsg pushCmdName : String) (pushCmdForce pushCmdPublic : Bool)
    (args : List String) (env : PushEnv) (commitWriteOk : Bool) (st : DioState) :
    Except CmdErr PushOk × DioState × List NetCall :=
  match args with
  | [] => (.error .noDbSpecified, st, [])
  | _ :: _ :: _ => (.error .tooManyDbs, st, [])
  | [file] =>
    match env.fileStat with
    | none => (.error .statFailed, st, [])
    | some (size, modTime) =>
      let pushAuthor := if pushCmdName ≠ "" then pushCmdName
        else match env.viperAuthor with | some u => u | none => ""
      let pushEmail := if pushCmdEmail ≠ "" then pushCmdEmail
        else match env.viperEmail with | some v => v | none => ""
      if pushAuthor = "" ∨ pushEmail = "" then (.error .authorEmailRequired, st, [])
      else if pushCmdMsg = "" then (.error .msgRequired, st, [])
      else
        let dbName := if pushCmdDB = "" then baseName file else pushCmdDB
        let branch := match st.branchPtr with | some b => b | none => pushCmdBranch
        let commit := match st.commitPtr with | some c => c | none => pushCmdCommit
        let req : PushRequest :=
          { file := file, branch := branch, commitmsg := pushCmdMsg,
            lastmodified := modTime, commit := commit,
            publicFlag := pushCmdPublic, force := pushCmdForce,
            licence := if pushCmdLicence ≠ "" then some pushCmdLicence else none }
        let calls := [NetCall.upload req]
        match env.resp with
        | none => (.error .uploadTransport, st, calls)
        | some (status, statusText, body) =>
          if status ≠ 201 then (.error (.uploadFailed status statusText), st, calls)
          else
            match env.jsonParse body with
            | none => (.error .jsonParseFailed, st, calls)
            | some parsedResponse =>
              match env.updateMetaResult with
              | .error e => (.error (.metaFail e), st, calls ++ [.metaFetch file])
              | .ok m =>
                let st1 := { st with metaOnDisk := some m }
                let commitId := (lookupA parsedResponse "commit_id").getD ""
                if commitWriteOk then
                  (.ok { dbName := dbName, branch := branch,
                         licence := if pushCmdLicence ≠ "" then some pushCmdLicence else none,
                         size := size, msg := pushCmdMsg },
                   { st1 with commitPtr := some commitId }, calls ++ [.metaFetch file])
                else (.error .commitWriteFailed, st1, calls ++ [.metaFetch file])

/-- The upload request of a push execution's network trace, when one was
issued. -/
def uploadedReq (r : Except CmdErr PushOk × DioState × List NetCall) :
    Option PushRequest :=
  r.2.2.findSome? (fun call =>
    match call with
    | .upload q => some q
    | _ => none)

/-! ## Metadata persistence (`saveMetadata`) -/

/-- Modelled from the spec: the repository's `saveMetadata` function (in a
file not under src/) serialises the metadata record and overwrites the
metadata file *in place* — spec §9: "the source's direct overwrite is a
known robustness gap that the redesign should close, not preserve".  The
file previously holding `old` is truncated and rewritten with `new`; an
interruption after `k` bytes leaves the prefix `new.take k` visible to
readers.  `interrupt = none` is the uninterrupted save. -/
def saveMetadataOverwrite (old new : Bytes) (interrupt : Option Nat) : Bytes :=
  match interrupt with
  | none => new
  | some k => new.take k

/-! ## Concrete fixtures for witnesses and counterexamples -/

/-- A fresh local state: nothing pulled or pushed yet. -/
def stEmpty : DioState :=
  { cacheDirExists := false, cache := [], workingCopy := none, wcMtime := none,
    metaOnDisk := none, branchPtr := none, commitPtr := none }

/-- The zero-value metadata record. -/
def metaEmpty : Metadata := { ActiveBranch := "", Branches := [], Commits := [] }

/-- A push environment in which everything succeeds and the server returns
commit id `abc123`. -/
def pushEnvOk : PushEnv :=
  { fileStat := some (17, 1700000000),
    viperAuthor := some "Alice",
    viperEmail := some "alice@example.com",
    resp := some (201, "201 Created", "json-body"),
    jsonParse := fun _ => some [("commit_id", "abc123")],
    updateMetaResult := .ok metaEmpty }

/-- A push environment whose upload is rejected with a non-fast-forward
conflict status. -/
def pushEnvConflict : PushEnv :=
  { pushEnvOk with resp := some (409, "409 Conflict", "") }

/-- A push environment whose upload fails with an unrelated server error. -/
def pushEnv500 : PushEnv :=
  { pushEnvOk with resp := some (500, "500 Internal Server Error", "") }

/-- A push environment whose 201 response body parses to JSON without a
`commit_id` key. -/
def pushEnvNoCommitId : PushEnv :=
  { pushEnvOk with jsonParse := fun _ => some [("status", "ok")] }

/-- A local state with a saved branch pointer file. -/
def stSavedBranch : DioState := { stEmpty with branchPtr := some "saved-branch" }

/-- A 200 download response with a two-byte body, a server-declared branch
and no usable Content-Disposition header. -/
def respOkPlain : HttpResponse :=
  { StatusCode := 200, Status := "200 OK", body := [1, 2],
    contentDisposition := "", branchHeader := "master", commitIdHeader := "" }

/-- A pull environment in which the metadata fetch and the download succeed. -/
def pullEnvOk : PullEnv :=
  { metaResult := .ok metaEmpty, resp := some respOkPlain,
    parseTime := fun _ => none }

/-- A 200 download response whose Content-Disposition carries a malformed
modification-date value. -/
def respBadDate : HttpResponse :=
  { respOkPlain with contentDisposition :=
      "attachment; filename=sales.db; modification-date=\"bogus\"; size=2" }

/-- A pull environment whose download response carries a malformed
modification-date; `time.Parse` rejects every string. -/
def pullEnvBadDate : PullEnv := { pullEnvOk with resp := some respBadDate }

/-- A local-I/O oracle in which every pull step succeeds. -/
def fsAllOk : PullFS :=
  { mkdirOk := true, cacheWrite := .ok, wcWrite := .ok,
    chtimesOk := true, saveOk := true }

/-- A local-I/O oracle whose working-copy write is interrupted after one
byte. -/
def fsWcFail1 : PullFS := { fsAllOk with wcWrite := .fail 1 }

/-! ## Push claims -/

/-- C9: For every push that succeeds with a 201 response whose JSON body
contains a `commit_id` value, the locally stored commit pointer for that
database afterwards equals exactly that returned commit id. -/
theorem pushStoresReturnedCommitId
    (br co dbn em lic msg name file : String) (force pub : Bool)
    (env : PushEnv) (st : DioState) (size mt : Nat) (stxt body : String)
    (kvs : List (String × String)) (cid : String) (m : Metadata)
    (hstat : env.fileStat = some (size, mt))
    (hauthor : (if name = ""
      then match env.viperAuthor with | some u => u | none => "" else name) ≠ "")
    (hemail : (if em = ""
      then match env.viperEmail with | some v => v | none => "" else em) ≠ "")
    (hmsg : msg ≠ "")
    (hresp : env.resp = some (201, stxt, body))
    (hjson : env.jsonParse body = some kvs)
    (hcid : lookupA kvs "commit_id" = some cid)
    (hmeta : env.updateMetaResult = .ok m) :
    (pushRun br co dbn em lic msg name force pub [file] env true st).2.1.commitPtr
      = some cid
    ∧ ∃ rep, (pushRun br co dbn em lic msg name force pub [file] env true st).1
      = .ok rep := by
  simp [pushRun, hstat, hresp, hjson, hmeta, hauthor, hemail, hmsg, hcid]

/-- Witness for C9: a concrete successful push stores the returned id. -/
theorem pushStoresReturnedCommitId_witness :
    lookupA [("commit_id", "abc123")] "commit_id" = some "abc123"
    ∧ ((pushRun "master" "" "" "" "" "m1" "" false false ["sales.db"] pushEnvOk
        true stEmpty).2.1.commitPtr = some "abc123"
      ∧ ∃ rep, (pushRun "master" "" "" "" "" "m1" "" false false ["sales.db"]
        pushEnvOk true stEmpty).1 = .ok rep) :=
  ⟨by decide,
   pushStoresReturnedCommitId "master" "" "" "" "" "m1" "" "sales.db" false false
     pushEnvOk stEmpty 17 1700000000 "201 Created" "json-body"
     [("commit_id", "abc123")] "abc123" metaEmpty
     rfl (by decide) (by decide) (by decide) rfl rfl rfl rfl⟩

/-- C10: For every push that receives a 201 response whose body is
well-formed JSON but lacks the `commit_id` key, the operation still reports
success and overwrites the local commit pointer file with the empty string,
rather than failing with a ProtocolError. -/
theorem pushMissingCommitIdSilentlyEmpty
    (br co dbn em lic msg name file : String) (force pub : Bool)
    (env : PushEnv) (st : DioState) (size mt : Nat) (stxt body : String)
    (kvs : List (String × String)) (m : Metadata)
    (hstat : env.fileStat = some (size, mt))
    (hauthor : (if name = ""
      then match env.viperAuthor with | some u => u | none => "" else name) ≠ "")
    (hemail : (if em = ""
      then match env.viperEmail with | some v => v | none => "" else em) ≠ "")
    (hmsg : msg ≠ "")
    (hresp : env.resp = some (201, stxt, body))
    (hjson : env.jsonParse body = some kvs)
    (hcid : lookupA kvs "commit_id" = none)
    (hmeta : env.updateMetaResult = .ok m) :
    (pushRun br co dbn em lic msg name force pub [file] env true st).2.1.commitPtr
      = some ""
    ∧ ∃ rep, (pushRun br co dbn em lic msg name force pub [file] env true st).1
      = .ok rep := by
  simp [pushRun, hstat, hresp, hjson, hmeta, hauthor, hemail, hmsg, hcid]

/-- Witness for C10: a concrete 201 response without `commit_id` still
succeeds and empties the pointer. -/
theorem pushMissingCommitIdSilentlyEmpty_witness :
    lookupA [("status", "ok")] "commit_id" = none
    ∧ ((pushRun "master" "" "" "" "" "m1" "" false false ["sales.db"]
        pushEnvNoCommitId true stEmpty).2.1.commitPtr = some ""
      ∧ ∃ rep, (pushRun "master" "" "" "" "" "m1" "" false false ["sales.db"]
        pushEnvNoCommitId true stEmpty).1 = .ok rep) :=
  ⟨by decide,
   pushMissingCommitIdSilentlyEmpty "master" "" "" "" "" "m1" "" "sales.db"
     false false pushEnvNoCommitId stEmpty 17 1700000000 "201 Created"
     "json-body" [("status", "ok")] metaEmpty
     rfl (by decide) (by decide) (by decide) rfl rfl rfl rfl⟩

/-- Counterexample to C6: a non-fast-forward rejection (HTTP 409) without
the force flag produces exactly the same generic upload-failed error
constructor as an unrelated server failure (HTTP 500); push.go lines
127-130 treat every non-201 status identically, so no distinguished
ConflictError exists. -/
theorem pushConflictNotDistinguished_cx :
    (pushRun "master" "" "" "" "" "m1" "" false false ["sales.db"]
      pushEnvConflict true stEmpty).1 = .error (.uploadFailed 409 "409 Conflict")
    ∧ (pushRun "master" "" "" "" "" "m1" "" false false ["sales.db"]
      pushEnv500 true stEmpty).1
      = .error (.uploadFailed 500 "500 Internal Server Error") := by
  constructor <;> rfl

/-- C6 as amended: every push whose upload response has a non-201 status —
whatever the status, the reason, or the force flag — fails with the one
generic remote error carrying that status and status text, and leaves the
local state untouched; no distinguished conflict error is produced. -/
theorem pushNon201IsGenericRemoteError
    (br co dbn em lic msg name file : String) (force pub : Bool)
    (env : PushEnv) (cw : Bool) (st : DioState) (size mt status : Nat)
    (stxt body : String)
    (hstat : env.fileStat = some (size, mt))
    (hauthor : (if name = ""
      then match env.viperAuthor with | some u => u | none => "" else name) ≠ "")
    (hemail : (if em = ""
      then match env.viperEmail with | some v => v | none => "" else em) ≠ "")
    (hmsg : msg ≠ "")
    (hresp : env.resp = some (status, stxt, body))
    (hstatus : status ≠ 201) :
    (pushRun br co dbn em lic msg name force pub [file] env cw st).1
      = .error (.uploadFailed status stxt)
    ∧ (pushRun br co dbn em lic msg name force pub [file] env cw st).2.1 = st := by
  simp [pushRun, hstat, hresp, hauthor, hemail, hmsg, hstatus]

/-- Witness for the amended C6: the 409 conflict rejection instantiates the
generic-error theorem. -/
theorem pushNon201IsGenericRemoteError_witness :
    (409 : Nat) ≠ 201
    ∧ ((pushRun "master" "" "" "" "" "m1" "" false false ["sales.db"]
        pushEnvConflict true stEmpty).1 = .error (.uploadFailed 409 "409 Conflict")
      ∧ (pushRun "master" "" "" "" "" "m1" "" false false ["sales.db"]
        pushEnvConflict true stEmpty).2.1 = stEmpty) :=
  ⟨by decide,
   pushNon201IsGenericRemoteError "master" "" "" "" "" "m1" "" "sales.db"
     false false pushEnvConflict true stEmpty 17 1700000000 409 "409 Conflict" ""
     rfl (by decide) (by decide) (by decide) rfl (by decide)⟩

/-- Counterexample to C5: with an explicit `--branch explicit-branch`
argument and a saved branch pointer file holding `saved-branch`, the upload
request carries `saved-branch` — push.go lines 83-89 overwrite the explicit
flag value with the saved pointer, so the explicit argument does *not* take
precedence. -/
theorem pushSavedPointerOverridesExplicit_cx :
    (uploadedReq (pushRun "explicit-branch" "" "" "" "" "m1" "" false false
      ["sales.db"] pushEnvOk true stSavedBranch)).map PushRequest.branch
      = some "saved-branch"
    ∧ "saved-branch" ≠ "explicit-branch" := by
  constructor
  · rfl
  · decide

/-- C5 as amended: the saved branch/commit pointer files, when present, take
precedence over the explicit flag values — the upload's base reference is
the saved pointer whenever the pointer file exists, and the explicit (or
default) flag value is used only when no pointer file exists. -/
theorem pushBaseReferenceFromSavedPointers
    (br co dbn em lic msg name file : String) (force pub : Bool)
    (env : PushEnv) (cw : Bool) (st : DioState) (size mt : Nat)
    (hstat : env.fileStat = some (size, mt))
    (hauthor : (if name = ""
      then match env.viperAuthor with | some u => u | none => "" else name) ≠ "")
    (hemail : (if em = ""
      then match env.viperEmail with | some v => v | none => "" else em) ≠ "")
    (hmsg : msg ≠ "") :
    uploadedReq (pushRun br co dbn em lic msg name force pub [file] env cw st)
      = some { file := file,
               branch := match st.branchPtr with | some b => b | none => br,
               commitmsg := msg, lastmodified := mt,
               commit := match st.commitPtr with | some c => c | none => co,
               publicFlag := pub, force := force,
               licence := if lic ≠ "" then some lic else none } := by
  simp only [pushRun, hstat, hauthor, hemail, hmsg]
  cases henv : env.resp with
  | none => simp [uploadedReq, hauthor, hemail]
  | some r =>
    obtain ⟨status, stxt, body⟩ := r
    by_cases hs : status = 201 <;>
      simp [uploadedReq, hs, hauthor, hemail, hmsg] <;>
      cases hj : env.jsonParse body <;>
      simp [uploadedReq, hj, hauthor, hemail] <;>
      cases hu : env.updateMetaResult <;>
      simp [uploadedReq, hu, hauthor, hemail] <;>
      cases cw <;> simp [uploadedReq, hauthor, hemail]

/-- Witness for the amended C5: with a saved branch pointer the uploaded
request's base branch is the saved value. -/
theorem pushBaseReferenceFromSavedPointers_witness :
    "m1" ≠ ""
    ∧ uploadedReq (pushRun "explicit-branch" "" "" "" "" "m1" "" false false
        ["sales.db"] pushEnvOk true stSavedBranch)
      = some { file := "sales.db", branch := "saved-branch", commitmsg := "m1",
               lastmodified := 1700000000, commit := "",
               publicFlag := false, force := false, licence := none } :=
  ⟨by decide,
   by
    have h := pushBaseReferenceFromSavedPointers "explicit-branch" "" "" "" ""
      "m1" "" "sales.db" false false pushEnvOk true stSavedBranch 17 1700000000
      rfl (by decide) (by decide) (by decide)
    simpa [stSavedBranch, stEmpty] using h⟩

/-- Counterexample to C2: a push invocation with both the branch flag and
the commit flag non-empty does not fail with the selector-exclusivity error
— it proceeds to the network and succeeds, with two remote-service
invocations recorded (the upload and the metadata refresh); push.go has no
mutual-exclusivity check. -/
theorem pushNoSelectorExclusivityCheck_cx :
    (pushRun "some-branch" "some-commit" "" "" "" "m1" "" false false
      ["sales.db"] pushEnvOk true stEmpty).1
      = .ok { dbName := "sales.db", branch := "some-branch", licence := none,
              size := 17, msg := "m1" }
    ∧ (pushRun "some-branch" "some-commit" "" "" "" "m1" "" false false
      ["sales.db"] pushEnvOk true stEmpty).2.2.length = 2 := by
  constructor <;> rfl

/-! ## Pull claims -/

/-- C2 as amended: the branch/commit mutual-exclusivity check is enforced by
the pull command: every pull invocation in which both the branch flag and
the commit flag are non-empty fails with the invalid-selector error, leaves
the local state untouched, and records zero remote-service invocations.
(The push command performs no such check — see the counterexample.) -/
theorem pullSelectorExclusivity (b c db : String) (env : PullEnv) (fs : PullFS)
    (st : DioState) (hb : b ≠ "") (hc : c ≠ "") :
    pullRun b c [db] env fs st = (.error .bothBranchAndCommit, st, []) := by
  simp [pullRun, hb, hc]

/-- Witness for the amended C2: concrete conflicting selectors fail with the
invalid-selector error and an empty network trace. -/
theorem pullSelectorExclusivity_witness :
    "some-branch" ≠ "" ∧ "some-commit" ≠ ""
    ∧ pullRun "some-branch" "some-commit" ["sales.db"] pullEnvOk fsAllOk stEmpty
      = (.error .bothBranchAndCommit, stEmpty, []) :=
  ⟨by decide, by decide,
   pullSelectorExclusivity "some-branch" "some-commit" "sales.db" pullEnvOk
     fsAllOk stEmpty (by decide) (by decide)⟩

/-- C3: the repository's `saveMetadata` overwrites the metadata file in
place, so a save of the record `[99, 100]` over the previous record
`[97, 98]` that is interrupted after one byte leaves `[99]` on disk — a
half-written record that is neither the old nor the new metadata, exactly
what the claimed write-temp-then-rename pattern would rule out. -/
theorem saveMetadataOverwriteTornWrite :
    saveMetadataOverwrite [97, 98] [99, 100] (some 1) = [99]
    ∧ ([99] : Bytes) ≠ [97, 98] ∧ ([99] : Bytes) ≠ [99, 100] := by
  decide

/-- C8: For every pull in which the content download and the working-copy
write succeed but the modification-date timestamp in the Content-Disposition
response header is malformed (`time.Parse` rejects it), the operation
reports the timestamp-parse error while the already-downloaded working-copy
file is kept on disk, with its cache entry in place. -/
theorem pullMalformedTimestampKeepsDownload
    (b c db : String) (env : PullEnv) (fs : PullFS) (st : DioState)
    (meta0 : Metadata) (resp : HttpResponse) (cVal : String)
    (hbc : ¬(b ≠ "" ∧ c ≠ ""))
    (hm : env.metaResult = .ok meta0)
    (hbk : ¬(¬ b = "" ∧ hasKey meta0.Branches b = false))
    (hck : ¬(¬ c = "" ∧ hasKey meta0.Commits c = false))
    (hresp : env.resp = some resp)
    (hstatus : resp.StatusCode = 200)
    (hdir : st.cacheDirExists = true ∨ fs.mkdirOk = true)
    (hcw : fs.cacheWrite = .ok)
    (hww : fs.wcWrite = .ok)
    (hdisp : contentDispositionModDate resp.contentDisposition = some cVal)
    (hparse : env.parseTime cVal = none) :
    (pullRun b c [db] env fs st).1 = .error (.timeParseFailed cVal)
    ∧ (pullRun b c [db] env fs st).2.1.workingCopy = some resp.body
    ∧ lookupA (pullRun b c [db] env fs st).2.1.cache (sha256Hex resp.body)
      = some resp.body := by
  rcases hdir with hcd | hmk
  · simp [pullRun, pullContent, hbc, hm, hbk, hck, hresp, hstatus, hcd, hcw,
      hww, hdisp, hparse, lookupA_setFile]
  · by_cases hcd : st.cacheDirExists <;>
      simp [pullRun, pullContent, hbc, hm, hbk, hck, hresp, hstatus, hcd, hmk,
        hcw, hww, hdisp, hparse, lookupA_setFile]

/-- Witness for C8: a concrete pull whose response carries
`modification-date="bogus"` fails with the parse error but keeps the
two-byte download in the working copy and the cache. -/
theorem pullMalformedTimestampKeepsDownload_witness :
    contentDispositionModDate respBadDate.contentDisposition = some "bogus"
    ∧ pullEnvBadDate.parseTime "bogus" = none
    ∧ ((pullRun "" "" ["sales.db"] pullEnvBadDate fsAllOk stEmpty).1
        = .error (.timeParseFailed "bogus")
      ∧ (pullRun "" "" ["sales.db"] pullEnvBadDate fsAllOk stEmpty).2.1.workingCopy
        = some respBadDate.body
      ∧ lookupA (pullRun "" "" ["sales.db"] pullEnvBadDate fsAllOk stEmpty).2.1.cache
          (sha256Hex respBadDate.body) = some respBadDate.body) :=
  ⟨by decide, rfl,
   pullMalformedTimestampKeepsDownload "" "" "sales.db" pullEnvBadDate fsAllOk
     stEmpty metaEmpty respBadDate "bogus"
     (by decide) rfl (by decide) (by decide) rfl (by decide)
     (Or.inr (by decide)) (by decide) (by decide) (by decide) rfl⟩

/-! ## Classification of pull executions -/

/-- Errors that can only be raised after the downloaded content has been
completely written to the cache and the working copy: malformed
modification-date, `os.Chtimes` failure, `saveMetadata` failure. -/
def isPostContentErr : CmdErr → Bool
  | .timeParseFailed _ => true
  | .chtimesFailed => true
  | .saveMetaFailed => true
  | _ => false

/-- The possible outcomes of the content phase of a pull, relative to the
state `base` it started from: the cache write was interrupted (working copy
and metadata untouched); the working-copy write was interrupted (complete
cache entry present); a post-content error occurred (complete cache entry
and working copy present, metadata untouched); or the pull succeeded
(complete cache entry and working copy present, metadata saved). -/
def contentPhaseClasses (resp : HttpResponse)
    (r : Except CmdErr PullOk × DioState × List NetCall) (base : DioState) : Prop :=
  (∃ k, r.1 = .error .cacheWriteFailed
    ∧ r.2.1.cache = setFile (sha256Hex resp.body) (resp.body.take k) base.cache
    ∧ r.2.1.workingCopy = base.workingCopy
    ∧ r.2.1.metaOnDisk = base.metaOnDisk)
  ∨ (∃ k, r.1 = .error .wcWriteFailed
    ∧ r.2.1.cache = setFile (sha256Hex resp.body) resp.body base.cache
    ∧ r.2.1.workingCopy = some (resp.body.take k)
    ∧ r.2.1.metaOnDisk = base.metaOnDisk)
  ∨ (∃ e, r.1 = .error e ∧ isPostContentErr e = true
    ∧ r.2.1.cache = setFile (sha256Hex resp.body) resp.body base.cache
    ∧ r.2.1.workingCopy = some resp.body
    ∧ r.2.1.metaOnDisk = base.metaOnDisk)
  ∨ ((∃ k, r.1 = .ok k)
    ∧ r.2.1.cache = setFile (sha256Hex resp.body) resp.body base.cache
    ∧ r.2.1.workingCopy = some resp.body
    ∧ ∃ m, r.2.1.metaOnDisk = some m)

/-- Every execution of the content phase falls into one of the four
content-phase classes. -/
theorem pullContent_classify (b db : String) (meta0 : Metadata)
    (resp : HttpResponse) (env : PullEnv) (fs : PullFS) (st1 : DioState)
    (calls : List NetCall) :
    contentPhaseClasses resp (pullContent b db meta0 resp env fs st1 calls) st1 := by
  unfold contentPhaseClasses
  cases hcw : fs.cacheWrite with
  | fail k => exact Or.inl ⟨k, by simp [pullContent, hcw]⟩
  | ok =>
    cases hww : fs.wcWrite with
    | fail k => exact Or.inr (Or.inl ⟨k, by simp [pullContent, hcw, hww]⟩)
    | ok =>
      cases hdisp : contentDispositionModDate resp.contentDisposition with
      | some c =>
        cases hpt : env.parseTime c with
        | none =>
          exact Or.inr (Or.inr (Or.inl ⟨.timeParseFailed c,
            by simp [pullContent, hcw, hww, hdisp, hpt, isPostContentErr]⟩))
        | some t =>
          by_cases hcht : fs.chtimesOk
          · by_cases hsave : fs.saveOk
            · exact Or.inr (Or.inr (Or.inr
                (by simp [pullContent, pullFinish, hcw, hww, hdisp, hpt, hcht, hsave])))
            · exact Or.inr (Or.inr (Or.inl ⟨.saveMetaFailed,
                by simp [pullContent, pullFinish, hcw, hww, hdisp, hpt, hcht,
                  hsave, isPostContentErr]⟩))
          · exact Or.inr (Or.inr (Or.inl ⟨.chtimesFailed,
              by simp [pullContent, hcw, hww, hdisp, hpt, hcht, isPostContentErr]⟩))
      | none =>
        by_cases hsave : fs.saveOk
        · exact Or.inr (Or.inr (Or.inr
            (by simp [pullContent, pullFinish, hcw, hww, hdisp, hsave])))
        · exact Or.inr (Or.inr (Or.inl ⟨.saveMetaFailed,
            by simp [pullContent, pullFinish, hcw, hww, hdisp, hsave,
              isPostContentErr]⟩))

/-- Every pull execution either leaves the local state untouched, failing
with a pre-content error, or the download response arrived and the
execution falls into one of the four content-phase classes relative to the
starting state. -/
theorem pullRun_classify (b c : String) (args : List String) (env : PullEnv)
    (fs : PullFS) (st : DioState) :
    ((pullRun b c args env fs st).2.1 = st
      ∧ ∃ e, (pullRun b c args env fs st).1 = .error e ∧ isPostContentErr e = false)
    ∨ (∃ resp, env.resp = some resp
        ∧ contentPhaseClasses resp (pullRun b c args env fs st) st) := by
  cases args with
  | nil => exact Or.inl ⟨rfl, .noDbSpecified, rfl, rfl⟩
  | cons a rest =>
    cases rest with
    | cons x xs => exact Or.inl ⟨rfl, .tooManyDbs, rfl, rfl⟩
    | nil =>
      by_cases hbc : b ≠ "" ∧ c ≠ ""
      · refine Or.inl ⟨?_, .bothBranchAndCommit, ?_, rfl⟩ <;> simp [pullRun, hbc]
      · cases hm : env.metaResult with
        | error e =>
          refine Or.inl ⟨?_, .metaFail e, ?_, rfl⟩ <;> simp [pullRun, hbc, hm]
        | ok meta0 =>
          by_cases hbk : ¬b = "" ∧ hasKey meta0.Branches b = false
          · obtain ⟨hb1, hb2⟩ := hbk
            have hc0 : c = "" := by by_contra hc; exact hbc ⟨hb1, hc⟩
            refine Or.inl ⟨?_, .branchNotExist, ?_, rfl⟩ <;>
              simp [pullRun, hbc, hm, hb1, hb2, hc0]
          · by_cases hck : ¬c = "" ∧ hasKey meta0.Commits c = false
            · obtain ⟨hc1, hc2⟩ := hck
              have hb0 : b = "" := by by_contra hb; exact hbc ⟨hb, hc1⟩
              refine Or.inl ⟨?_, .commitNotExist, ?_, rfl⟩ <;>
                simp [pullRun, hbc, hm, hbk, hc1, hc2, hb0]
            · cases hresp : env.resp with
              | none =>
                refine Or.inl ⟨?_, .downloadTransport, ?_, rfl⟩ <;>
                  simp [pullRun, hbc, hm, hbk, hck, hresp]
              | some resp =>
                by_cases hs : resp.StatusCode = 200
                · by_cases hcd : st.cacheDirExists = true
                  · refine Or.inr ⟨resp, rfl, ?_⟩
                    have heq : pullRun b c [a] env fs st
                        = pullContent b a meta0 resp env fs st
                          [NetCall.metaFetch a, NetCall.download a
                            (if b ≠ "" then ("branch", b) else ("commit", c)).1
                            (if b ≠ "" then ("branch", b) else ("commit", c)).2] := by
                      simp [pullRun, hbc, hm, hbk, hck, hresp, hs, hcd]
                    rw [heq]
                    exact pullContent_classify b a meta0 resp env fs st _
                  · by_cases hmk : fs.mkdirOk = true
                    · refine Or.inr ⟨resp, rfl, ?_⟩
                      have heq : pullRun b c [a] env fs st
                          = pullContent b a meta0 resp env fs
                            { st with cacheDirExists := true }
                            [NetCall.metaFetch a, NetCall.download a
                              (if b ≠ "" then ("branch", b) else ("commit", c)).1
                              (if b ≠ "" then ("branch", b) else ("commit", c)).2] := by
                        simp [pullRun, hbc, hm, hbk, hck, hresp, hs, hcd, hmk]
                      rw [heq]
                      exact pullContent_classify b a meta0 resp env fs
                        { st with cacheDirExists := true } _
                    · refine Or.inl ⟨?_, .mkdirFailed, ?_, rfl⟩ <;>
                        simp [pullRun, hbc, hm, hbk, hck, hresp, hs, hcd, hmk]
                · by_cases h404 : resp.StatusCode = 404
                  · by_cases hb0 : b = ""
                    · by_cases hc0 : c = ""
                      · refine Or.inl ⟨?_, .dbNotFound404, ?_, rfl⟩ <;>
                          simp [pullRun, hbc, hm, hbk, hck, hresp, hs, h404, hb0, hc0]
                      · have hkc : ¬ hasKey meta0.Commits c = false :=
                          fun hf => hck ⟨hc0, hf⟩
                        refine Or.inl ⟨?_, .commitNotFound404 c, ?_, rfl⟩ <;>
                          simp [pullRun, hbc, hm, hbk, hkc, hresp, hs, h404, hb0, hc0]
                    · have hc0 : c = "" := by by_contra hc; exact hbc ⟨hb0, hc⟩
                      have hkb : ¬ hasKey meta0.Branches b = false :=
                        fun hf => hbk ⟨hb0, hf⟩
                      refine Or.inl ⟨?_, .branchNotKnown404, ?_, rfl⟩ <;>
                        simp [pullRun, hbc, hm, hkb, hck, hresp, hs, h404, hb0, hc0]
                  · refine Or.inl ⟨?_, .downloadFailed resp.StatusCode resp.Status,
                      ?_, rfl⟩ <;>
                      simp [pullRun, hbc, hm, hbk, hck, hresp, hs, h404]

/-- Inversion for successful pulls: the download response arrived and the
final state holds the complete body in the cache under its content address,
the complete body in the working copy, and a saved metadata record. -/
theorem pullRun_ok_inv (b c : String) (args : List String) (env : PullEnv)
    (fs : PullFS) (st : DioState) (k : PullOk)
    (h : (pullRun b c args env fs st).1 = .ok k) :
    ∃ resp, env.resp = some resp
      ∧ (pullRun b c args env fs st).2.1.cache
        = setFile (sha256Hex resp.body) resp.body st.cache
      ∧ (pullRun b c args env fs st).2.1.workingCopy = some resp.body
      ∧ ∃ m, (pullRun b c args env fs st).2.1.metaOnDisk = some m := by
  rcases pullRun_classify b c args env fs st with
    ⟨hst, e, he, hpe⟩ | ⟨resp, hresp, hcl⟩
  · rw [h] at he; exact absurd he (by simp)
  · rcases hcl with ⟨kk, hres, hrest⟩ | ⟨kk, hres, hrest⟩ | ⟨e, hres, hrest⟩ |
      ⟨⟨kk, hres⟩, hc, hw, hm⟩
    · rw [h] at hres; exact absurd hres (by simp)
    · rw [h] at hres; exact absurd hres (by simp)
    · rw [h] at hres; exact absurd hres (by simp)
    · exact ⟨resp, hresp, hc, hw, hm⟩

/-- C1: For every successful pull, the name of the file written into the
local content cache equals the hex-encoded SHA-256 digest of the downloaded
body bytes (the complete body is stored under `sha256Hex body`), and a
second successful pull downloading the same bytes leaves the cache exactly
as it was: writing the same bytes again stores nothing new. -/
theorem pullContentAddressInvariant
    (b c db b2 c2 : String) (env env2 : PullEnv) (fs fs2 : PullFS)
    (st : DioState) (k k2 : PullOk)
    (h : (pullRun b c [db] env fs st).1 = .ok k)
    (h2 : (pullRun b2 c2 [db] env2 fs2 ((pullRun b c [db] env fs st).2.1)).1
      = .ok k2)
    (hbody : ∀ r1 r2, env.resp = some r1 → env2.resp = some r2 →
      r2.body = r1.body) :
    (∃ resp, env.resp = some resp
      ∧ lookupA ((pullRun b c [db] env fs st).2.1).cache (sha256Hex resp.body)
        = some resp.body)
    ∧ ((pullRun b2 c2 [db] env2 fs2 ((pullRun b c [db] env fs st).2.1)).2.1).cache
      = ((pullRun b c [db] env fs st).2.1).cache := by
  obtain ⟨resp, hresp, hc, hw, hm⟩ := pullRun_ok_inv b c [db] env fs st k h
  obtain ⟨resp2, hresp2, hc2, hw2, hm2⟩ := pullRun_ok_inv b2 c2 [db] env2 fs2 _ k2 h2
  have hb : resp2.body = resp.body := hbody resp resp2 hresp hresp2
  constructor
  · exact ⟨resp, hresp, by rw [hc]; exact lookupA_setFile _ _ _⟩
  · rw [hc2, hb, hc, setFile_idem]

/-- A local-I/O oracle whose `saveMetadata` step fails. -/
def fsSaveFail : PullFS := { fsAllOk with saveOk := false }

/-- Witness for C1: two consecutive successful pulls of the same two-byte
body; the blob sits under its hex SHA-256 digest and the second pull leaves
the cache unchanged. -/
theorem pullContentAddressInvariant_witness :
    (pullRun "" "" ["sales.db"] pullEnvOk fsAllOk stEmpty).1
      = .ok (.generic "sales.db" 2)
    ∧ (pullRun "" "" ["sales.db"] pullEnvOk fsAllOk
        ((pullRun "" "" ["sales.db"] pullEnvOk fsAllOk stEmpty).2.1)).1
      = .ok (.generic "sales.db" 2)
    ∧ ((∃ resp, pullEnvOk.resp = some resp
        ∧ lookupA ((pullRun "" "" ["sales.db"] pullEnvOk fsAllOk stEmpty).2.1).cache
          (sha256Hex resp.body) = some resp.body)
      ∧ ((pullRun "" "" ["sales.db"] pullEnvOk fsAllOk
          ((pullRun "" "" ["sales.db"] pullEnvOk fsAllOk stEmpty).2.1)).2.1).cache
        = ((pullRun "" "" ["sales.db"] pullEnvOk fsAllOk stEmpty).2.1).cache) :=
  ⟨by decide, by decide,
   pullContentAddressInvariant "" "" "sales.db" "" "" pullEnvOk pullEnvOk
     fsAllOk fsAllOk stEmpty (.generic "sales.db" 2) (.generic "sales.db" 2)
     (by decide) (by decide)
     (fun r1 r2 h1 h2 => by
       have e1 : respOkPlain = r1 := Option.some.inj h1
       have e2 : respOkPlain = r2 := Option.some.inj h2
       rw [← e1, ← e2])⟩

/-- C4: metadata is persisted only after the downloaded content is durably
in the cache and the working copy.  First conjunct: whenever a pull changed
the on-disk metadata, the new record was saved and the complete downloaded
body is present both under its digest in the cache and in the working copy
— the saved metadata never accompanies content that was not written.
Second conjunct: whenever a pull stops with an error between the content
write and the completed metadata save (a post-content error), the on-disk
metadata is unchanged — stale but not corrupt — while the content is fully
present. -/
theorem pullMetadataAfterContent (b c : String) (args : List String)
    (env : PullEnv) (fs : PullFS) (st : DioState) :
    ((pullRun b c args env fs st).2.1.metaOnDisk ≠ st.metaOnDisk →
      ∃ resp m, env.resp = some resp
        ∧ (pullRun b c args env fs st).2.1.metaOnDisk = some m
        ∧ lookupA (pullRun b c args env fs st).2.1.cache (sha256Hex resp.body)
          = some resp.body
        ∧ (pullRun b c args env fs st).2.1.workingCopy = some resp.body)
    ∧ (∀ e, (pullRun b c args env fs st).1 = .error e →
        isPostContentErr e = true →
        (pullRun b c args env fs st).2.1.metaOnDisk = st.metaOnDisk
        ∧ ∃ resp, env.resp = some resp
          ∧ lookupA (pullRun b c args env fs st).2.1.cache (sha256Hex resp.body)
            = some resp.body
          ∧ (pullRun b c args env fs st).2.1.workingCopy = some resp.body) := by
  rcases pullRun_classify b c args env fs st with
    ⟨hst, e0, he0, hpe0⟩ | ⟨resp, hresp, hcl⟩
  · constructor
    · intro hne; rw [hst] at hne; exact absurd rfl hne
    · intro e he hpe
      rw [he0] at he
      injection he with hee
      rw [← hee] at hpe
      rw [hpe0] at hpe
      exact absurd hpe (by simp)
  · rcases hcl with ⟨kk, hres, hc, hw, hm⟩ | ⟨kk, hres, hc, hw, hm⟩ |
      ⟨e1, hres, hpe1, hc, hw, hm⟩ | ⟨⟨kk, hres⟩, hc, hw, m, hm⟩
    · constructor
      · intro hne; rw [hm] at hne; exact absurd rfl hne
      · intro e he hpe
        rw [hres] at he; injection he with hee
        rw [← hee] at hpe; exact absurd hpe (by simp [isPostContentErr])
    · constructor
      · intro hne; rw [hm] at hne; exact absurd rfl hne
      · intro e he hpe
        rw [hres] at he; injection he with hee
        rw [← hee] at hpe; exact absurd hpe (by simp [isPostContentErr])
    · constructor
      · intro hne; rw [hm] at hne; exact absurd rfl hne
      · intro e he hpe
        exact ⟨hm, resp, hresp, by rw [hc]; exact lookupA_setFile _ _ _, hw⟩
    · constructor
      · intro hne
        exact ⟨resp, m, hresp, hm, by rw [hc]; exact lookupA_setFile _ _ _, hw⟩
      · intro e he hpe
        rw [hres] at he; exact absurd he (by simp)

/-- Witness for C4: a successful pull changes the metadata and exhibits the
content; a pull whose `saveMetadata` step fails keeps the metadata
untouched while the content is fully present. -/
theorem pullMetadataAfterContent_witness :
    ((pullRun "" "" ["sales.db"] pullEnvOk fsAllOk stEmpty).2.1.metaOnDisk
        ≠ stEmpty.metaOnDisk
      ∧ (∃ resp m, pullEnvOk.resp = some resp
        ∧ (pullRun "" "" ["sales.db"] pullEnvOk fsAllOk stEmpty).2.1.metaOnDisk
          = some m
        ∧ lookupA (pullRun "" "" ["sales.db"] pullEnvOk fsAllOk stEmpty).2.1.cache
            (sha256Hex resp.body) = some resp.body
        ∧ (pullRun "" "" ["sales.db"] pullEnvOk fsAllOk stEmpty).2.1.workingCopy
          = some resp.body))
    ∧ ((pullRun "" "" ["sales.db"] pullEnvOk fsSaveFail stEmpty).1
        = .error .saveMetaFailed
      ∧ ((pullRun "" "" ["sales.db"] pullEnvOk fsSaveFail stEmpty).2.1.metaOnDisk
          = stEmpty.metaOnDisk
        ∧ ∃ resp, pullEnvOk.resp = some resp
          ∧ lookupA (pullRun "" "" ["sales.db"] pullEnvOk fsSaveFail stEmpty).2.1.cache
              (sha256Hex resp.body) = some resp.body
          ∧ (pullRun "" "" ["sales.db"] pullEnvOk fsSaveFail stEmpty).2.1.workingCopy
            = some resp.body)) :=
  ⟨⟨by decide,
    (pullMetadataAfterContent "" "" ["sales.db"] pullEnvOk fsAllOk stEmpty).1
      (by decide)⟩,
   ⟨by decide,
    (pullMetadataAfterContent "" "" ["sales.db"] pullEnvOk fsSaveFail stEmpty).2
      .saveMetaFailed (by decide) (by decide)⟩⟩

/-- Counterexample to C7: a pull whose working-copy write is interrupted
after one byte fails, yet leaves the complete two-byte blob in the cache
under its digest while the working copy holds only the one-byte prefix —
the cache entry and the working copy are not "either both completely
written or neither updated". -/
theorem pullPartialWorkingCopyWithCacheEntry_cx :
    (pullRun "" "" ["sales.db"] pullEnvOk fsWcFail1 stEmpty).1
      = .error .wcWriteFailed
    ∧ lookupA (pullRun "" "" ["sales.db"] pullEnvOk fsWcFail1 stEmpty).2.1.cache
        (sha256Hex [1, 2]) = some [1, 2]
    ∧ (pullRun "" "" ["sales.db"] pullEnvOk fsWcFail1 stEmpty).2.1.workingCopy
      = some [1]
    ∧ ([1] : Bytes) ≠ [1, 2] := by
  refine ⟨by decide, by decide, by decide, by decide⟩

/-- C7 as amended: the converse guarantee holds — in every pull execution
(failed or not), whenever the working-copy file was modified at all, the
complete downloaded body is already present in the cache under its digest;
the cache entry is written in full before the working copy is touched.
(The claimed both-or-neither atomicity fails: the cache can be updated
while the working copy is not — see the counterexample.) -/
theorem pullWorkingCopyImpliesCacheEntry (b c : String) (args : List String)
    (env : PullEnv) (fs : PullFS) (st : DioState)
    (h : (pullRun b c args env fs st).2.1.workingCopy ≠ st.workingCopy) :
    ∃ resp, env.resp = some resp
      ∧ lookupA (pullRun b c args env fs st).2.1.cache (sha256Hex resp.body)
        = some resp.body := by
  rcases pullRun_classify b c args env fs st with
    ⟨hst, e0, he0, hpe0⟩ | ⟨resp, hresp, hcl⟩
  · rw [hst] at h; exact absurd rfl h
  · rcases hcl with ⟨kk, hres, hc, hw, hm⟩ | ⟨kk, hres, hc, hw, hm⟩ |
      ⟨e1, hres, hpe1, hc, hw, hm⟩ | ⟨⟨kk, hres⟩, hc, hw, hm⟩
    · rw [hw] at h; exact absurd rfl h
    · exact ⟨resp, hresp, by rw [hc]; exact lookupA_setFile _ _ _⟩
    · exact ⟨resp, hresp, by rw [hc]; exact lookupA_setFile _ _ _⟩
    · exact ⟨resp, hresp, by rw [hc]; exact lookupA_setFile _ _ _⟩

/-- Witness for the amended C7: the interrupted working-copy write modified
the working copy, and the complete cache entry is indeed present. -/
theorem pullWorkingCopyImpliesCacheEntry_witness :
    (pullRun "" "" ["sales.db"] pullEnvOk fsWcFail1 stEmpty).2.1.workingCopy
      ≠ stEmpty.workingCopy
    ∧ ∃ resp, pullEnvOk.resp = some resp
      ∧ lookupA (pullRun "" "" ["sales.db"] pullEnvOk fsWcFail1 stEmpty).2.1.cache
          (sha256Hex resp.body) = some resp.body :=
  ⟨by decide,
   pullWorkingCopyImpliesCacheEntry "" "" ["sales.db"] pullEnvOk fsWcFail1
     stEmpty (by decide)⟩
